import Mathlib

set_option maxHeartbeats 1000000
set_option linter.unusedVariables false

/-! Verification development for the MyDM segmented download manager
(python_app/downloader.py) and its native messaging host
(python_app/mydm_host.py).  Python strings are modelled as List Char at the
character level and as String at the interface level, byte streams as
List Nat, and every external effect (HTTP traffic, the filesystem, the
clock, the JSON codec, the MD5-derived id) is an explicit input of the
modelled function. -/

/-- Characters that sanitize_filename replaces with an underscore
(downloader.py line 25). -/
def invalidChars : List Char := ['<', '>', ':', '"', '/', '\\', '|', '?', '*']

/-- Whitespace recognised by Python str.strip and str.isspace: the code
points of Unicode category Zs together with those of bidirectional classes
WS, B and S, namely tab through carriage return, the separator controls 1C
to 1F, the space, next line 85, the no-break space A0, the Ogham space mark
1680, the spaces 2000 to 200A, the line and paragraph separators 2028 and
2029, the narrow no-break space 202F, the medium mathematical space 205F and
the ideographic space 3000. -/
def pyWhitespace (c : Char) : Bool :=
  decide ((0x09 ≤ c.toNat ∧ c.toNat ≤ 0x0D) ∨ (0x1C ≤ c.toNat ∧ c.toNat ≤ 0x20) ∨
    c.toNat = 0x85 ∨ c.toNat = 0xA0 ∨ c.toNat = 0x1680 ∨
    (0x2000 ≤ c.toNat ∧ c.toNat ≤ 0x200A) ∨ c.toNat = 0x2028 ∨ c.toNat = 0x2029 ∨
    c.toNat = 0x202F ∨ c.toNat = 0x205F ∨ c.toNat = 0x3000)

/-- Removes trailing characters satisfying p (Python str.rstrip). -/
def rstripP (p : Char → Bool) (s : List Char) : List Char :=
  (s.reverse.dropWhile p).reverse

/-- Python str.strip() with no argument: whitespace from both ends. -/
def pyStrip (s : List Char) : List Char :=
  rstripP pyWhitespace (s.dropWhile pyWhitespace)

/-- Python str.rstrip with the two-character set of dot and space
(downloader.py line 28). -/
def rstripDotSpace (s : List Char) : List Char :=
  rstripP (fun c => c == '.' || c == ' ') s

/-- Replacement of the invalid filename characters by an underscore
(downloader.py line 26). -/
def replaceInvalid (s : List Char) : List Char :=
  s.map (fun c => if c ∈ invalidChars then '_' else c)

/-- Removal of the control characters, the regex substitution of the
character class from 0x00 to 0x1f (downloader.py line 27). -/
def stripControls (s : List Char) : List Char :=
  s.filter (fun c => decide (0x20 ≤ c.toNat))

/-- Python os.path.splitext on a string without path separators (the input
has already had every slash and backslash replaced by an underscore): split
at the last dot unless every character before it is itself a dot. -/
def splitextDot (s : List Char) : Nat :=
  s.length - (s.reverse.takeWhile (fun c => c != '.')).length - 1

def splitext (s : List Char) : List Char × List Char :=
  if (s.reverse.takeWhile (fun c => c != '.')).length = s.length then (s, [])
  else if (s.take (splitextDot s)).all (fun c => c == '.') then (s, [])
  else (s.take (splitextDot s), s.drop (splitextDot s))

/-- Python list slicing s[:k] with a possibly negative bound. -/
def pySliceTo (s : List Char) (k : Int) : List Char :=
  if 0 ≤ k then s.take k.toNat else s.take ((s.length : Int) + k).toNat

/-- Truncation branch of sanitize_filename (downloader.py lines 31 to 33):
split off the extension and slice the stem to fit. -/
def truncateName (s : List Char) : List Char :=
  pySliceTo (splitext s).1 (150 - ((splitext s).2.length : Int)) ++ (splitext s).2

/-- Substitution of the literal download for an empty name
(downloader.py lines 29 to 30). -/
def emptyFallback (s : List Char) : List Char :=
  if s = [] then "download".toList else s

/-- Length cap of 150 characters with stem truncation
(downloader.py lines 31 to 33). -/
def lengthCap (s : List Char) : List Char :=
  if 150 < s.length then truncateName s else s

/-- Character-level model of sanitize_filename (downloader.py lines 23 to
36).  The try/except wrapper only matters for exceptions that the pure
pipeline cannot raise, so it is not modelled. -/
def sanitizeList (name : List Char) : List Char :=
  lengthCap (emptyFallback (rstripDotSpace (pyStrip (stripControls (replaceInvalid name)))))

/-- String-level sanitize_filename. -/
def sanitize_filename (name : String) : String :=
  (sanitizeList name.toList).asString

/-- The sanitation rule as the specification states it (section 6): replace
each invalid character with an underscore, strip control characters, strip
leading and trailing whitespace together with trailing dots, substitute
download if empty, truncate the stem past 150 characters while preserving
the extension.  Written for comparison with sanitizeList. -/
def specSanitizeList (name : List Char) : List Char :=
  lengthCap (emptyFallback (rstripP (fun c => pyWhitespace c || c == '.')
    ((stripControls (replaceInvalid name)).dropWhile pyWhitespace)))

/-- String-level form of the sanitation rule of the specification. -/
def spec_sanitize (name : String) : String :=
  (specSanitizeList name.toList).asString

theorem mem_of_mem_dropWhile {α : Type} (p : α → Bool) :
    ∀ l : List α, ∀ a ∈ l.dropWhile p, a ∈ l := by
  intro l
  induction l with
  | nil => intro a ha; exact absurd ha (by simp [List.dropWhile])
  | cons x t ih =>
    intro a ha
    by_cases hx : p x
    · simp only [List.dropWhile, hx] at ha
      exact List.mem_cons_of_mem x (ih a ha)
    · simp only [List.dropWhile, hx] at ha
      simpa using ha

theorem dropWhile_imp_eq {α : Type} (p q : α → Bool) :
    ∀ l : List α, (∀ a ∈ l, p a = true → q a = true) →
      (l.dropWhile p).dropWhile q = l.dropWhile q := by
  intro l
  induction l with
  | nil => intro _; rfl
  | cons x t ih =>
    intro h
    by_cases hx : p x
    · have hq : q x = true := h x (List.mem_cons_self x t) hx
      simp only [List.dropWhile, hx, hq]
      exact ih (fun a ha => h a (List.mem_cons_of_mem x ha))
    · simp only [List.dropWhile, hx]

theorem dropWhile_congr_mem {α : Type} (p q : α → Bool) :
    ∀ l : List α, (∀ a ∈ l, p a = q a) →
      l.dropWhile p = l.dropWhile q := by
  intro l
  induction l with
  | nil => intro _; rfl
  | cons x t ih =>
    intro h
    have hx : p x = q x := h x (List.mem_cons_self x t)
    by_cases hpx : p x
    · simp only [List.dropWhile, hpx, hx ▸ hpx]
      exact ih (fun a ha => h a (List.mem_cons_of_mem x ha))
    · have hqx : q x = false := by rw [← hx]; simpa using hpx
      simp only [List.dropWhile, hpx, hqx]

/-- When every whitespace character of the input is the ASCII space, the
composite strip of the source, strip() followed by rstrip of dot and space,
agrees with the single trim that the specification describes.  The
hypothesis is essential: a trailing no-break space uncovered by a removed
trailing dot survives the source trim but not the specification trim. -/
theorem strip_stage_eq (s : List Char)
    (hws : ∀ a ∈ s, pyWhitespace a = true → a = ' ') :
    rstripDotSpace (pyStrip s) =
      rstripP (fun c => pyWhitespace c || c == '.') (s.dropWhile pyWhitespace) := by
  unfold pyStrip rstripDotSpace rstripP
  rw [List.reverse_reverse]
  have hsub : ∀ a ∈ (s.dropWhile pyWhitespace).reverse, a ∈ s := by
    intro a ha
    exact mem_of_mem_dropWhile pyWhitespace s a (List.mem_reverse.mp ha)
  rw [dropWhile_imp_eq pyWhitespace (fun c => c == '.' || c == ' ')]
  · congr 1
    apply dropWhile_congr_mem
    intro a ha
    by_cases hsp : a = ' '
    · subst hsp
      decide
    · have hwa : pyWhitespace a = false := by
        cases hq : pyWhitespace a
        · rfl
        · exact absurd (hws a (hsub a ha) hq) hsp
      have hspb : (a == ' ') = false := beq_eq_false_iff_ne.mpr hsp
      rw [hwa, hspb]
      simp
  · intro a ha hpa
    have ha2 : a = ' ' := hws a (hsub a ha) hpa
    subst ha2
    decide

theorem takeWhile_len_le {α : Type} (p : α → Bool) :
    ∀ l : List α, (l.takeWhile p).length ≤ l.length := by
  intro l
  induction l with
  | nil => simp [List.takeWhile]
  | cons x t ih =>
    by_cases hx : p x
    · simp only [List.takeWhile, hx]
      simpa using ih
    · simp only [List.takeWhile, hx]
      simp

theorem splitext_snd_nil (s : List Char) (h : (splitext s).2 = []) :
    (splitext s).1 = s := by
  unfold splitext at *
  split_ifs at * with h1 h2
  · rfl
  · rfl
  · exfalso
    have hlen : (s.reverse.takeWhile (fun c => c != '.')).length ≤ s.length := by
      calc (s.reverse.takeWhile (fun c => c != '.')).length
          ≤ s.reverse.length := takeWhile_len_le _ _
        _ = s.length := List.length_reverse s
    have hlt : splitextDot s < s.length := by
      unfold splitextDot
      omega
    have := List.drop_eq_nil_iff.mp h
    omega

theorem truncateName_ne_nil (s : List Char) (h : 150 < s.length) :
    truncateName s ≠ [] := by
  unfold truncateName
  by_cases he : (splitext s).2 = []
  · have hb : (splitext s).1 = s := splitext_snd_nil s he
    rw [he, hb]
    simp only [List.length_nil, Nat.cast_zero, sub_zero, List.append_nil]
    unfold pySliceTo
    rw [if_pos (by norm_num)]
    intro hcon
    have hlen : (s.take ((150 : Int).toNat)).length = 0 := by rw [hcon]; rfl
    rw [List.length_take] at hlen
    omega
  · intro hcon
    rw [List.append_eq_nil] at hcon
    exact he hcon.2

theorem emptyFallback_ne_nil (s : List Char) : emptyFallback s ≠ [] := by
  unfold emptyFallback
  split_ifs with h
  · simp [String.toList]
  · exact h

theorem lengthCap_ne_nil (s : List Char) (h : s ≠ []) : lengthCap s ≠ [] := by
  unfold lengthCap
  split_ifs with hl
  · exact truncateName_ne_nil s hl
  · exact h

theorem sanitizeList_ne_nil (name : List Char) : sanitizeList name ≠ [] :=
  lengthCap_ne_nil _ (emptyFallback_ne_nil _)

theorem sanitizeList_eq_spec (name : List Char)
    (h : ∀ c ∈ name, pyWhitespace c = true → c = ' ' ∨ c.toNat < 0x20) :
    sanitizeList name = specSanitizeList name := by
  unfold sanitizeList specSanitizeList
  have hws : ∀ a ∈ stripControls (replaceInvalid name),
      pyWhitespace a = true → a = ' ' := by
    intro a ha hwa
    have hc : ¬ a.toNat < 0x20 := by
      have := (List.mem_filter.mp ha).2
      simpa using this
    have ham : a ∈ replaceInvalid name := (List.mem_filter.mp ha).1
    unfold replaceInvalid at ham
    obtain ⟨c, hcmem, hce⟩ := List.mem_map.mp ham
    by_cases hinv : c ∈ invalidChars
    · rw [if_pos hinv] at hce
      rw [← hce] at hwa
      exact absurd hwa (by decide)
    · rw [if_neg hinv] at hce
      subst hce
      rcases h c hcmem hwa with h2 | h2
      · exact h2
      · exact absurd h2 hc
  rw [strip_stage_eq _ hws]

/-- Claim C8, counterexample: at the input file, no-break space, dot, the
source sanitizer keeps the trailing no-break space, because strip() stops at
the trailing dot and rstrip of dot and space stops at the no-break space,
while the specification trim, stripping trailing whitespace and dots
together, removes it; so the claimed equality with the specification
pipeline fails. -/
theorem c8_unicode_whitespace_cex :
    sanitize_filename "file\u00A0." = "file\u00A0" ∧
    spec_sanitize "file\u00A0." = "file" ∧
    ("file\u00A0" : String) ≠ "file" := by
  refine ⟨rfl, rfl, by decide⟩

/-- Claim C8 as amended: the sanitizer is total and always returns a
non-empty string, and it equals the specification pipeline on every input
whose whitespace characters are the ASCII space or controls; on other
inputs the trim stages can differ, because the source strips trailing dots
only together with ASCII spaces, so a trailing non-ASCII whitespace
character uncovered by a removed dot survives. -/
theorem c8_sanitize_matches_spec_amended :
    (∀ name : String, sanitize_filename name ≠ "") ∧
    (∀ name : String,
      (∀ c ∈ name.toList, pyWhitespace c = true → c = ' ' ∨ c.toNat < 0x20) →
      sanitize_filename name = spec_sanitize name) := by
  constructor
  · intro name hcon
    unfold sanitize_filename at hcon
    apply sanitizeList_ne_nil name.toList
    have : (sanitizeList name.toList).asString.toList = "".toList := by rw [hcon]
    simpa [List.asString] using this
  · intro name h
    unfold sanitize_filename spec_sanitize
    rw [sanitizeList_eq_spec name.toList h]

/-- Witness for the amended claim C8 at a concrete ASCII input exercising
both trims. -/
theorem c8_sanitize_matches_spec_amended_witness :
    sanitize_filename " file. " ≠ "" ∧
    sanitize_filename " file. " = spec_sanitize " file. " :=
  ⟨c8_sanitize_matches_spec_amended.1 " file. ",
    c8_sanitize_matches_spec_amended.2 " file. " (by decide)⟩

/-! Data model: download status, records, registry, outbound events. -/

inductive Status where
  | pending
  | downloading
  | paused
  | complete
  | cancelled
  | error
  deriving Repr, DecidableEq

/-- One entry of self.downloads (downloader.py lines 696 to 710).  The three
callback fields of the Python dict are modelled by the events the host
callbacks emit, and start_time by the startTime field filled from the clock
input. -/
structure DownloadRecord where
  url : String
  filename : String
  outputFile : String
  size : Nat
  downloaded : Nat
  status : Status
  startTime : Nat
  paused : Bool
  cancelled : Bool
  referer : Option String
  deriving Repr, DecidableEq

/-- The process-wide registry self.downloads, a dict keyed by download id. -/
abbrev Registry := List (String × DownloadRecord)

/-- Dict entry update, a no-op on an absent key. -/
def modifyRecord (st : Registry) (id : String) (f : DownloadRecord → DownloadRecord) :
    Registry :=
  st.map (fun p => if p.1 = id then (p.1, f p.2) else p)

/-- Dict assignment self.downloads[id] = r. -/
def insertRecord (st : Registry) (id : String) (r : DownloadRecord) : Registry :=
  if (st.lookup id).isSome then modifyRecord st id (fun _ => r) else st ++ [(id, r)]

/-- Outbound events written by the host callbacks and handlers
(mydm_host.py lines 109 to 143 and the handler acknowledgements). -/
inductive Event where
  | started (id : String)
  | progress (id filename : String) (percent : Nat) (speed : String)
      (size downloaded : Nat)
  | complete (id filename file : String)
  | error (id : Option String) (msg : String)
  | paused (id : String)
  | resumed (id : String)
  | cancelled (id : String)
  deriving Repr, DecidableEq

/-! String helpers modelling the Python str operations used by
get_file_info. -/

/-- Index of the first occurrence of sep as a substring (Python str.find). -/
def substrIdx (sep : List Char) : List Char → Option Nat
  | [] => if sep = [] then some 0 else none
  | c :: cs =>
      if sep.isPrefixOf (c :: cs) then some 0
      else (substrIdx sep cs).map (· + 1)

/-- Python substring containment, sep in s. -/
def pyContains (s sep : List Char) : Bool := (substrIdx sep s).isSome

/-- Everything after the first occurrence of sep. -/
def afterFirst (s sep : List Char) : List Char :=
  match substrIdx sep s with
  | some i => s.drop (i + sep.length)
  | none => s

/-- Python s.split(sep)[1]: the text between the first occurrence of sep and
the following occurrence, or the end of the string. -/
def splitPiece1 (s sep : List Char) : List Char :=
  match substrIdx sep (afterFirst s sep) with
  | some i => (afterFirst s sep).take i
  | none => afterFirst s sep

/-- Python str.strip with the two quote characters, used on the
Content-Disposition filename token (downloader.py line 545). -/
def stripQuotes (s : List Char) : List Char :=
  rstripP (fun c => c == '"' || c == '\'') (s.dropWhile (fun c => c == '"' || c == '\''))

/-- Python url.split with a slash, last piece: the suffix after the last
slash. -/
def lastComponent (s : List Char) : List Char :=
  (s.reverse.takeWhile (fun c => c != '/')).reverse

/-- Python split on a question mark, first piece. -/
def beforeQuery (s : List Char) : List Char :=
  s.takeWhile (fun c => c != '?')

/-- Python int() on the Content-Length header value: surrounding whitespace
then decimal digits with an optional plus sign.  A negative or otherwise
malformed Content-Length is rejected, which the caller turns into the probe
failure that int() raising ValueError produces. -/
def pyNat (s : List Char) : Option Nat :=
  match pyStrip s with
  | [] => none
  | '+' :: ds =>
      if ds ≠ [] ∧ ds.all (fun c => c.isDigit) then
        some (ds.foldl (fun a c => 10 * a + (c.toNat - 48)) 0)
      else none
  | ds =>
      if ds.all (fun c => c.isDigit) then
        some (ds.foldl (fun a c => 10 * a + (c.toNat - 48)) 0)
      else none

/-! HTTP probe: get_file_info (downloader.py lines 524 to 566). -/

/-- Result of the HEAD request as the environment provides it: whether
raise_for_status passes, and the response headers with their keys already
lowered (the requests library exposes a case-insensitive header dict). -/
structure HeadResponse where
  statusOk : Bool
  headers : List (String × String)
  deriving Repr, DecidableEq

/-- Probe result dict of get_file_info. -/
structure FileInfo where
  filename : String
  size : Nat
  resumable : Bool
  headers : List (String × String)
  deriving Repr, DecidableEq

/-- The token searched inside Content-Disposition. -/
def fnToken : List Char := "filename=".toList

/-- URL fallback of the filename derivation: the last path component with
the query stripped, or the literal download when that is empty
(downloader.py line 548). -/
def urlFallbackName (url : String) : List Char :=
  if beforeQuery (lastComponent url.toList) = [] then "download".toList
  else beforeQuery (lastComponent url.toList)

/-- Raw filename choice of get_file_info (downloader.py lines 539 to 548):
when Content-Disposition is present the URL fallback is never consulted. -/
def rawFilename (cdHeader : Option String) (url : String) : List Char :=
  match cdHeader with
  | some cd =>
      if pyContains cd.toList fnToken then stripQuotes (splitPiece1 cd.toList fnToken)
      else "download".toList
  | none => urlFallbackName url

/-- Size derivation int(headers.get with default zero) of get_file_info
(downloader.py line 554); none models int() raising ValueError. -/
def contentLengthOf (headers : List (String × String)) : Option Nat :=
  match headers.lookup "content-length" with
  | some v => pyNat v.toList
  | none => some 0

/-- Model of get_file_info.  The resp argument is the outcome of the HEAD
request; a transport error or a non-2xx status becomes the single ProbeFailed
error string that the except branch raises (downloader.py lines 565
to 566). -/
def get_file_info (url : String) (resp : Except String HeadResponse) :
    Except String FileInfo :=
  match resp with
  | .error e => .error ("Failed to get file info: " ++ e)
  | .ok r =>
      if !r.statusOk then .error "Failed to get file info: HTTP error" else
      match contentLengthOf r.headers with
      | none => .error "Failed to get file info: invalid literal for int"
      | some n =>
          .ok { filename := (sanitizeList
                  (rawFilename (r.headers.lookup "content-disposition") url)).asString
              , size := n
              , resumable := (r.headers.lookup "accept-ranges").getD "none" != "none"
              , headers := r.headers }

/-! Segmented download engine (downloader.py lines 568 to 898). -/

/-- Segment table of _download_multi_segment (downloader.py lines 812 to
819): chunk = size / N with integer division, segment i spans i*chunk to
(i+1)*chunk - 1 inclusive, the last segment extends to size - 1.  Bounds are
integers because Python computes them with unbounded ints and the end bound
can be negative for degenerate sizes. -/
def segStart (fileSize numThreads i : Nat) : Int :=
  ((i * (fileSize / numThreads) : Nat) : Int)

def segEnd (fileSize numThreads i : Nat) : Int :=
  if i = numThreads - 1 then (fileSize : Int) - 1
  else (((i + 1) * (fileSize / numThreads) : Nat) : Int) - 1

def segments (fileSize numThreads : Nat) : List (Nat × Int × Int) :=
  (List.range numThreads).map (fun i =>
    (i, segStart fileSize numThreads i, segEnd fileSize numThreads i))

/-- Result dict of download_segment. -/
structure SegmentResult where
  bytes_downloaded : Nat
  success : Bool
  error : Option String
  deriving Repr, DecidableEq

/-- One HTTP GET as seen by the origin server, with its optional Range
bounds. -/
structure HttpGet where
  url : String
  range : Option (Int × Int)
  deriving Repr, DecidableEq

/-- Model of download_segment (downloader.py lines 568 to 611).  The resp
argument is the ranged GET outcome: a transport error, or the chunk list
that iter_content yields (a mid-stream failure is folded into the
transport-error case).  The flagsAt argument exposes the paused and
cancelled flags of the owning record as they read at each chunk boundary;
the source chunk loop (lines 602 to 606) never consults them, writing every
chunk unconditionally.  The second component is the sidecar file content, or
none when the request failed before the file was opened. -/
def download_segment (flagsAt : Nat → Bool × Bool)
    (resp : Except String (List (List Nat))) : SegmentResult × Option (List Nat) :=
  match resp with
  | .error e => ({ bytes_downloaded := 0, success := false, error := some e }, none)
  | .ok chunks =>
      ({ bytes_downloaded := chunks.flatten.length, success := true, error := none },
        some chunks.flatten)

/-- Loop body of merge_segments: append the sidecar content when the file
exists and unlink it, otherwise silently continue. -/
def mergeStep (acc : List Nat × (Nat → Option (List Nat))) (i : Nat) :
    List Nat × (Nat → Option (List Nat)) :=
  match acc.2 i with
  | some content => (acc.1 ++ content, fun j => if j = i then none else acc.2 j)
  | none => acc

/-- Model of merge_segments (downloader.py lines 613 to 631): concatenate
the existing sidecars in index order into the final file, removing each
after it is appended.  The parts argument is the sidecar filesystem at merge
time, indexed by segment number; the result is the final file content and
the remaining sidecar filesystem.  The only exception the Python body can
raise is an I/O error, which the model has no counterpart for, so the
modelled merge is total. -/
def merge_segments (parts : Nat → Option (List Nat)) (numSegments : Nat) :
    List Nat × (Nat → Option (List Nat)) :=
  (List.range numSegments).foldl mergeStep ([], parts)

/-- Chunk loop of _download_single_segment (downloader.py lines 775 to
805).  cancelledAt k is the cancelled flag of the record as read at the k-th
chunk boundary; the paused spin only delays and is not modelled; timeAt k is
the clock in milliseconds at the k-th boundary and speed the formatted speed
string (float formatting is environment input).  Progress events carry the
literal filename file because the source references a file_info name that is
never in scope there. -/
def singleLoop (cancelledAt : Nat → Bool) (timeAt : Nat → Nat)
    (speed : Nat → String) (downloadId : String) (total : Nat) :
    List (List Nat) → Nat → Nat → Nat → List Nat → List Event →
      (Except String (List Nat)) × List Event
  | [], _, _, _, content, evs => (.ok content, evs)
  | c :: cs, k, downloaded, lastT, content, evs =>
      if cancelledAt k then (.error "Download cancelled", evs)
      else if c = [] then
        singleLoop cancelledAt timeAt speed downloadId total cs (k + 1) downloaded
          lastT content evs
      else
        let d := downloaded + c.length
        if 0 < total ∧ 500 ≤ timeAt k - lastT then
          singleLoop cancelledAt timeAt speed downloadId total cs (k + 1) d
            (timeAt k) (content ++ c)
            (evs ++ [Event.progress downloadId "file" (min 100 (d * 100 / total))
              (speed d) total d])
        else
          singleLoop cancelledAt timeAt speed downloadId total cs (k + 1) d
            lastT (content ++ c) evs

/-- Model of _download_single_segment: an unranged GET streamed to the final
file.  contentLength is the Content-Length of the GET response. -/
def download_single_segment (resp : Except String (List (List Nat)))
    (contentLength : Nat) (cancelledAt : Nat → Bool) (timeAt : Nat → Nat)
    (speed : Nat → String) (downloadId : String) :
    (Except String (List Nat)) × List Event :=
  match resp with
  | .error e => (.error e, [])
  | .ok chunks =>
      singleLoop cancelledAt timeAt speed downloadId contentLength chunks 0 0 0 [] []

/-- Completion-drain loop of _download_multi_segment (downloader.py lines
838 to 866): results s is the outcome of segment s, the list argument the
as_completed arrival order, cancelledAt k the cancelled flag read at the
k-th completion boundary.  A failed segment raises at once; the cancellation
check runs after the throttled progress report. -/
def multiLoop (results : Nat → SegmentResult) (cancelledAt : Nat → Bool)
    (timeAt : Nat → Nat) (speed : Nat → String) (downloadId : String)
    (outputFile : String) (fileSize : Nat) :
    List Nat → Nat → Nat → Nat → List Event → (Except String Nat) × List Event
  | [], _, total, _, evs => (.ok total, evs)
  | s :: rest, k, total, lastT, evs =>
      let r := results s
      if r.success then
        let total2 := total + r.bytes_downloaded
        let emit := 500 ≤ timeAt k - lastT
        let evs2 := if emit then
            evs ++ [Event.progress downloadId (lastComponent outputFile.toList).asString
              (min 100 (total2 * 100 / fileSize)) (speed total2) fileSize total2]
          else evs
        let lastT2 := if emit then timeAt k else lastT
        if cancelledAt k then (.error "Download cancelled", evs2)
        else multiLoop results cancelledAt timeAt speed downloadId outputFile fileSize
          rest (k + 1) total2 lastT2 evs2
      else (.error ("Segment " ++ toString s ++ " failed: " ++ r.error.getD "None"), evs)

/-- Model of _download_multi_segment (downloader.py lines 810 to 880): build
the segment table, issue one ranged GET per segment (the pool runs every
submitted task, so every sidecar whose GET succeeded exists on disk even
when the drain loop raises), drain completions in arrival order, then merge.
On any failure the except branch removes every sidecar and re-raises. -/
def download_multi_segment (numThreads : Nat) (url outputFile : String)
    (fileSize : Nat) (segResp : Nat → Except String (List (List Nat)))
    (flagsAt : Nat → Nat → Bool × Bool) (order : List Nat)
    (cancelledAt : Nat → Bool) (timeAt : Nat → Nat) (speed : Nat → String)
    (downloadId : String) :
    (Except String (List Nat)) × List HttpGet × List Event :=
  let segs := segments fileSize numThreads
  let gets := segs.map (fun s => ({ url := url, range := some (s.2.1, s.2.2) } : HttpGet))
  let parts := fun i =>
    if i < numThreads then (download_segment (flagsAt i) (segResp i)).2 else none
  let results := fun i => (download_segment (flagsAt i) (segResp i)).1
  match multiLoop results cancelledAt timeAt speed downloadId outputFile fileSize
      order 0 0 0 [] with
  | (.ok _, evs) => (.ok (merge_segments parts numThreads).1, gets, evs)
  | (.error e, evs) => (.error e, gets, evs)

/-- Trace of one _execute_download run: the registry afterwards, the events
the callbacks emitted, the GET requests issued, and the final file content
when the run completed. -/
structure ExecResult where
  st : Registry
  events : List Event
  gets : List HttpGet
  finalFile : Option (List Nat)

/-- Model of _execute_download (downloader.py lines 722 to 753): sizes below
one MiB take the single-segment path with an unranged GET, everything else
the multi-segment path; on return the record is marked complete with
downloaded set to the probed size, on an exception it is marked error; the
matching callback then fires.  The referer only shapes the outbound request
headers, which are environment input here. -/
def execute_download (numThreads : Nat) (st : Registry) (downloadId url : String)
    (info : FileInfo) (outputFile : String)
    (singleResp : Except String (List (List Nat))) (singleLen : Nat)
    (segResp : Nat → Except String (List (List Nat)))
    (flagsAt : Nat → Nat → Bool × Bool) (order : List Nat)
    (cancelledAt : Nat → Bool) (timeAt : Nat → Nat) (speed : Nat → String) :
    ExecResult :=
  let attempt : (Except String (List Nat)) × List HttpGet × List Event :=
    if info.size < 1024 * 1024 then
      let r := download_single_segment singleResp singleLen cancelledAt timeAt speed
        downloadId
      (r.1, [{ url := url, range := none }], r.2)
    else
      download_multi_segment numThreads url outputFile info.size segResp flagsAt
        order cancelledAt timeAt speed downloadId
  match attempt with
  | (.ok content, gets, evs) =>
      { st := modifyRecord st downloadId
          (fun r => { r with status := .complete, downloaded := info.size })
      , events := evs ++ [Event.complete downloadId info.filename outputFile]
      , gets := gets
      , finalFile := some content }
  | (.error e, gets, evs) =>
      { st := modifyRecord st downloadId (fun r => { r with status := .error })
      , events := evs ++ [Event.error (some downloadId) e]
      , gets := gets
      , finalFile := none }

/-! Registry operations and start_download (downloader.py lines 633 to
720 and 900 to 926). -/

/-- Model of pause_download (downloader.py lines 900 to 905): set the paused
flag and overwrite the status unconditionally whenever the record exists. -/
def pause_download (st : Registry) (id : String) : Registry :=
  if (st.lookup id).isSome then
    modifyRecord st id (fun r => { r with paused := true, status := .paused })
  else st

/-- Model of resume_download (downloader.py lines 907 to 912). -/
def resume_download (st : Registry) (id : String) : Registry :=
  if (st.lookup id).isSome then
    modifyRecord st id (fun r => { r with paused := false, status := .downloading })
  else st

/-- Model of cancel_download (downloader.py lines 914 to 919). -/
def cancel_download (st : Registry) (id : String) : Registry :=
  if (st.lookup id).isSome then
    modifyRecord st id (fun r => { r with cancelled := true, status := .cancelled })
  else st

/-- Early-return guard of start_download (downloader.py lines 650 to 652):
the id is already registered with status downloading or paused. -/
def activeAlready (st : Registry) (id : String) : Bool :=
  match st.lookup id with
  | some r => r.status == .downloading || r.status == .paused
  | none => false

/-- Arguments of the background thread that start_download spawns for
_execute_download. -/
structure SpawnedTask where
  downloadId : String
  url : String
  referer : Option String
  info : FileInfo
  outputFile : String
  deriving Repr, DecidableEq

/-- Result of the synchronous part of start_download: the registry
afterwards, the events emitted through the callbacks before it returns, the
returned download id, and the background task it spawned, if any. -/
structure StartResult where
  st : Registry
  events : List Event
  id : String
  spawned : Option SpawnedTask
  deriving Repr, DecidableEq

/-- Model of the synchronous body of start_download (downloader.py lines 633
to 720).  genId is the MD5-derived id of the url (hashlib is an external
library), now the clock at dispatch, existingSize the filesystem query for
an already present final file, probe the HEAD transaction.  An id that is
already downloading or paused returns at once; a probe failure fires the
error callback and returns without touching the registry; a final file of
exactly the probed size short-circuits to complete; otherwise the record is
registered as downloading and the fetch thread is spawned. -/
def start_download (genId : String → String) (now : Nat) (downloadDir : String)
    (existingSize : String → Option Nat)
    (probe : String → Option String → Except String HeadResponse)
    (st : Registry) (url : String) (referer : Option String) : StartResult :=
  let id := genId url
  if activeAlready st id then { st := st, events := [], id := id, spawned := none }
  else
    match get_file_info url (probe url referer) with
    | .error e =>
        { st := st, events := [Event.error (some id) e], id := id, spawned := none }
    | .ok info =>
        let outputFile := downloadDir ++ "/" ++ sanitize_filename info.filename
        let record : DownloadRecord :=
          { url := url, filename := info.filename, outputFile := outputFile
          , size := info.size, downloaded := 0, status := .downloading
          , startTime := now, paused := false, cancelled := false, referer := referer }
        if existingSize outputFile = some info.size then
          { st := insertRecord st id
              { record with downloaded := info.size, status := .complete }
          , events := [Event.complete id info.filename outputFile]
          , id := id, spawned := none }
        else
          { st := insertRecord st id record, events := [], id := id
          , spawned := some { downloadId := id, url := url, referer := referer
                            , info := info, outputFile := outputFile } }

/-! Native messaging host (mydm_host.py). -/

/-- Inbound message as json.loads plus dict access exposes it: the optional
command, url, referer and id fields. -/
structure Msg where
  command : Option String
  url : Option String
  referer : Option String
  id : Option String
  deriving Repr, DecidableEq

/-- Little-endian packing of the 4-byte length header, struct.pack with the
native unsigned int format on a little-endian host. -/
def pack32LE (n : Nat) : List Nat :=
  [n % 256, n / 256 % 256, n / 65536 % 256, n / 16777216 % 256]

/-- Matching struct.unpack of a 4-byte header. -/
def unpack32LE (bs : List Nat) : Nat :=
  match bs with
  | [a, b, c, d] => a + 256 * b + 65536 * c + 16777216 * d
  | _ => 0

/-- One outbound frame as send_message writes it. -/
def encodeFrame (body : List Nat) : List Nat := pack32LE body.length ++ body

/-- Model of read_message (mydm_host.py lines 39 to 66): read four header
bytes, fail on a short header; read the payload, fail on an empty payload;
hand the payload to the JSON codec.  The parse argument models json.loads
together with the dict view: it returns none when the payload is not valid
JSON (the except branch) or parses to a falsy value (the caller breaks on
those too).  The returned remainder is the unread stream. -/
def read_message (parse : List Nat → Option Msg) (s : List Nat) :
    Option Msg × List Nat :=
  if (s.take 4).length ≠ 4 then (none, s.drop 4)
  else
    let len := unpack32LE (s.take 4)
    let body := (s.drop 4).take len
    let rest := (s.drop 4).drop len
    if body = [] then (none, rest)
    else (parse body, rest)

/-- Environment of the host: the id hash, the clock at dispatch, the
download directory, the filesystem probe and the HEAD transaction. -/
structure HostEnv where
  genId : String → String
  now : Nat
  downloadDir : String
  existingSize : String → Option Nat
  probe : String → Option String → Except String HeadResponse

/-- Model of handle_download_command (mydm_host.py lines 145 to 185): a
missing url is an error with no state change; otherwise start_download runs
synchronously, its callbacks emit first, and the started acknowledgement is
sent only after it returns. -/
def handle_download_command (env : HostEnv) (st : Registry) (m : Msg) :
    Registry × List Event × Option SpawnedTask :=
  match m.url with
  | none => (st, [Event.error none "No URL provided"], none)
  | some url =>
      let r := start_download env.genId env.now env.downloadDir env.existingSize
        env.probe st url m.referer
      (r.st, r.events ++ [Event.started r.id], r.spawned)

/-- Model of handle_pause_command (mydm_host.py lines 187 to 209). -/
def handle_pause_command (st : Registry) (m : Msg) : Registry × List Event :=
  match m.id with
  | none => (st, [Event.error none "No download ID provided"])
  | some id => (pause_download st id, [Event.paused id])

/-- Model of handle_resume_command (mydm_host.py lines 211 to 233). -/
def handle_resume_command (st : Registry) (m : Msg) : Registry × List Event :=
  match m.id with
  | none => (st, [Event.error none "No download ID provided"])
  | some id => (resume_download st id, [Event.resumed id])

/-- Model of handle_cancel_command (mydm_host.py lines 235 to 257). -/
def handle_cancel_command (st : Registry) (m : Msg) : Registry × List Event :=
  match m.id with
  | none => (st, [Event.error none "No download ID provided"])
  | some id => (cancel_download st id, [Event.cancelled id])

/-- Fuelled main loop of run (mydm_host.py lines 259 to 297): read a frame,
stop on none, dispatch on the command field, accumulate emitted events and
spawned background tasks.  Every productive iteration consumes at least five
bytes, so stream length plus one is enough fuel. -/
def runAux (parse : List Nat → Option Msg) (env : HostEnv) :
    Nat → Registry → List Nat → List Event → List SpawnedTask →
      Registry × List Event × List SpawnedTask
  | 0, st, _, evs, sp => (st, evs, sp)
  | fuel + 1, st, s, evs, sp =>
      match read_message parse s with
      | (none, _) => (st, evs, sp)
      | (some m, rest) =>
          match m.command with
          | some "download" =>
              let r := handle_download_command env st m
              runAux parse env fuel r.1 rest (evs ++ r.2.1) (sp ++ r.2.2.toList)
          | some "pause" =>
              let r := handle_pause_command st m
              runAux parse env fuel r.1 rest (evs ++ r.2) sp
          | some "resume" =>
              let r := handle_resume_command st m
              runAux parse env fuel r.1 rest (evs ++ r.2) sp
          | some "cancel" =>
              let r := handle_cancel_command st m
              runAux parse env fuel r.1 rest (evs ++ r.2) sp
          | c =>
              runAux parse env fuel st rest
                (evs ++ [Event.error none ("Unknown command: " ++ c.getD "None")]) sp

/-- The dispatcher loop on a finite inbound stream. -/
def runHost (parse : List Nat → Option Msg) (env : HostEnv) (st : Registry)
    (s : List Nat) : Registry × List Event × List SpawnedTask :=
  runAux parse env (s.length + 1) st s [] []

/-! Concrete fixtures used by witnesses and counterexamples. -/

/-- A record in the terminal state complete. -/
def recComplete : DownloadRecord :=
  { url := "http://h/a.bin", filename := "a.bin", outputFile := "/dl/a.bin"
  , size := 10, downloaded := 10, status := .complete, startTime := 0
  , paused := false, cancelled := false, referer := none }

/-- A record in the state downloading. -/
def recDownloading : DownloadRecord :=
  { url := "http://h/big.bin", filename := "big.bin", outputFile := "/dl/big.bin"
  , size := 2097152, downloaded := 0, status := .downloading, startTime := 0
  , paused := false, cancelled := false, referer := none }

/-- Registry holding one completed download. -/
def stTerminal : Registry := [("d1", recComplete)]

/-- Registry holding one active download. -/
def stActive : Registry := [("d1", recDownloading)]

/-- Probe result of a two MiB file on a server that does not advertise
ranges. -/
def infoBigNoRange : FileInfo :=
  { filename := "big.bin", size := 2097152, resumable := false, headers := [] }

/-- Probe result of a two MiB file on a range-capable server. -/
def infoBig : FileInfo :=
  { filename := "big.bin", size := 2097152, resumable := true, headers := [] }

/-- Per-segment GET outcomes: segment zero delivers three bytes, every other
segment returns an empty chunk list (a short origin body). -/
def segRespDemo : Nat → Except String (List (List Nat)) :=
  fun i => if i = 0 then .ok [[1, 2, 3]] else .ok []

/-! Claim C1. -/

/-- Claim C1 (code_bug evidence): the partition decision of
_execute_download never reads the resumable field, and at the failing input,
a two MiB probe with resumable false, it issues eight ranged GETs instead of
the single unranged GET that the specification requires for a server without
range support. -/
theorem c1_multi_on_size_alone :
    (∀ (numThreads : Nat) (st : Registry) (downloadId url : String)
        (filename : String) (size : Nat) (b b' : Bool)
        (headers : List (String × String)) (outputFile : String)
        (singleResp : Except String (List (List Nat))) (singleLen : Nat)
        (segResp : Nat → Except String (List (List Nat)))
        (flagsAt : Nat → Nat → Bool × Bool) (order : List Nat)
        (cancelledAt : Nat → Bool) (timeAt : Nat → Nat) (speed : Nat → String),
      execute_download numThreads st downloadId url
          { filename := filename, size := size, resumable := b, headers := headers }
          outputFile singleResp singleLen segResp flagsAt order cancelledAt timeAt speed =
        execute_download numThreads st downloadId url
          { filename := filename, size := size, resumable := b', headers := headers }
          outputFile singleResp singleLen segResp flagsAt order cancelledAt timeAt speed) ∧
    (execute_download 8 stActive "d1" "http://h/big.bin" infoBigNoRange "/dl/big.bin"
        (.ok []) 0 segRespDemo (fun _ _ => (false, false)) [0, 1, 2, 3, 4, 5, 6, 7]
        (fun _ => false) (fun _ => 0) (fun _ => "0 B/s")).gets =
      [ { url := "http://h/big.bin", range := some (0, 262143) }
      , { url := "http://h/big.bin", range := some (262144, 524287) }
      , { url := "http://h/big.bin", range := some (524288, 786431) }
      , { url := "http://h/big.bin", range := some (786432, 1048575) }
      , { url := "http://h/big.bin", range := some (1048576, 1310719) }
      , { url := "http://h/big.bin", range := some (1310720, 1572863) }
      , { url := "http://h/big.bin", range := some (1572864, 1835007) }
      , { url := "http://h/big.bin", range := some (1835008, 2097151) } ] := by
  constructor
  · intro numThreads st downloadId url filename size b b' headers outputFile
      singleResp singleLen segResp flagsAt order cancelledAt timeAt speed
    rfl
  · rfl

/-! Claim C3. -/

/-- Claim C3 (code_bug evidence): the chunk loop of download_segment is
independent of the paused and cancelled flags of the owning record, and with
the cancelled flag set at every chunk boundary it still writes every chunk
and reports success instead of aborting with a cancellation error. -/
theorem c3_download_segment_no_flag_checks :
    (∀ (flagsAt flagsAt' : Nat → Bool × Bool)
        (resp : Except String (List (List Nat))),
      download_segment flagsAt resp = download_segment flagsAt' resp) ∧
    download_segment (fun _ => (false, true)) (.ok [[1, 2, 3], [4, 5, 6]]) =
      ({ bytes_downloaded := 6, success := true, error := none },
        some [1, 2, 3, 4, 5, 6]) := by
  constructor
  · intro f g resp
    cases resp <;> rfl
  · rfl

/-! Claim C5. -/

/-- Lookup after a dict-entry update: the first matching entry is rewritten
in place. -/
theorem lookup_modifyRecord (id : String) (f : DownloadRecord → DownloadRecord) :
    ∀ (st : Registry) (r : DownloadRecord), st.lookup id = some r →
      (modifyRecord st id f).lookup id = some (f r) := by
  intro st
  induction st with
  | nil => intro r h; simp [List.lookup] at h
  | cons p t ih =>
    intro r h
    obtain ⟨k, v⟩ := p
    by_cases hk : k = id
    · subst hk
      have h1 : v = r := by simpa [List.lookup] using h
      subst h1
      have hmap : modifyRecord ((k, v) :: t) k f = (k, f v) :: modifyRecord t k f := by
        simp [modifyRecord]
      rw [hmap]
      simp [List.lookup]
    · have hbeq : (id == k) = false := beq_eq_false_iff_ne.mpr (fun hc => hk hc.symm)
      simp only [List.lookup, hbeq] at h
      have hmap : modifyRecord ((k, v) :: t) id f = (k, v) :: modifyRecord t id f := by
        simp [modifyRecord, hk]
      rw [hmap]
      simp only [List.lookup, hbeq]
      exact ih r h

/-- Claim C5, counterexample: a record whose status is the terminal state
complete is moved to paused by pause_download and to cancelled by
cancel_download, so terminal states do transition further. -/
theorem c5_terminal_status_overwritten_cex :
    (stTerminal.lookup "d1").map (fun r => r.status) = some Status.complete ∧
    ((pause_download stTerminal "d1").lookup "d1").map (fun r => r.status) =
      some Status.paused ∧
    ((cancel_download stTerminal "d1").lookup "d1").map (fun r => r.status) =
      some Status.cancelled := by
  refine ⟨rfl, rfl, rfl⟩

/-- Claim C5 as amended: pause_download, resume_download and cancel_download
overwrite the flags and status of any existing record unconditionally,
whatever its current state, terminal states included. -/
theorem c5_control_ops_overwrite (st : Registry) (id : String)
    (r : DownloadRecord) (h : st.lookup id = some r) :
    (pause_download st id).lookup id =
      some { r with paused := true, status := .paused } ∧
    (resume_download st id).lookup id =
      some { r with paused := false, status := .downloading } ∧
    (cancel_download st id).lookup id =
      some { r with cancelled := true, status := .cancelled } := by
  have hsome : (st.lookup id).isSome := by rw [h]; rfl
  refine ⟨?_, ?_, ?_⟩
  · unfold pause_download
    rw [if_pos hsome]
    exact lookup_modifyRecord id _ st r h
  · unfold resume_download
    rw [if_pos hsome]
    exact lookup_modifyRecord id _ st r h
  · unfold cancel_download
    rw [if_pos hsome]
    exact lookup_modifyRecord id _ st r h

/-- Witness for the amended claim C5 at a concrete registry. -/
theorem c5_control_ops_overwrite_witness :
    (pause_download stTerminal "d1").lookup "d1" =
      some { recComplete with paused := true, status := .paused } ∧
    (resume_download stTerminal "d1").lookup "d1" =
      some { recComplete with paused := false, status := .downloading } ∧
    (cancel_download stTerminal "d1").lookup "d1" =
      some { recComplete with cancelled := true, status := .cancelled } :=
  c5_control_ops_overwrite stTerminal "d1" recComplete rfl

/-! Claim C9. -/

/-- Claim C9: starting a download whose derived id is already registered
with status downloading or paused returns that id with the registry
untouched, no events, no probe consulted (the conclusion holds for every
probe) and no fetch task spawned. -/
theorem c9_start_existing_active_noop (genId : String → String) (now : Nat)
    (downloadDir : String) (existingSize : String → Option Nat)
    (probe : String → Option String → Except String HeadResponse)
    (st : Registry) (url : String) (referer : Option String)
    (r : DownloadRecord) (h1 : st.lookup (genId url) = some r)
    (h2 : r.status = .downloading ∨ r.status = .paused) :
    start_download genId now downloadDir existingSize probe st url referer =
      { st := st, events := [], id := genId url, spawned := none } := by
  have hact : activeAlready st (genId url) = true := by
    unfold activeAlready
    rw [h1]
    rcases h2 with h | h <;> simp [h]
  simp [start_download, hact]

/-- Witness for claim C9 at a concrete registry with an active record. -/
theorem c9_start_existing_active_noop_witness :
    start_download (fun _ => "d1") 0 "/dl" (fun _ => none) (fun _ _ => .error "x")
        stActive "http://h/big.bin" none =
      { st := stActive, events := [], id := "d1", spawned := none } :=
  c9_start_existing_active_noop (fun _ => "d1") 0 "/dl" (fun _ => none)
    (fun _ _ => .error "x") stActive "http://h/big.bin" none recDownloading rfl
    (Or.inl rfl)

/-! Claims C2 and C4: framing and dispatcher. -/

/-- Payload bytes of a frame that is not valid JSON. -/
def badBody : List Nat := [123, 110, 111, 116, 32, 106, 115, 111, 110]

/-- Payload bytes of a well-formed pause command frame. -/
def pauseBody : List Nat :=
  "\x7b\"command\":\"pause\",\"id\":\"abc\"\x7d".toList.map Char.toNat

/-- Payload bytes of a well-formed download command frame. -/
def downloadBody : List Nat :=
  "\x7b\"command\":\"download\",\"url\":\"http://h/file.bin\"\x7d".toList.map Char.toNat

/-- Concrete stand-in for json.loads plus dict access on the payloads used
in the counterexamples, agreeing with the real codec on each of them: the
two well-formed payloads parse to their dicts, everything else, including
the malformed payload above, fails. -/
def demoParse (b : List Nat) : Option Msg :=
  if b = pauseBody then
    some { command := some "pause", url := none, referer := none, id := some "abc" }
  else if b = downloadBody then
    some { command := some "download", url := some "http://h/file.bin"
         , referer := none, id := none }
  else none

/-- Concrete host environment: a fixed id hash and a probe that fails. -/
def demoEnv : HostEnv :=
  { genId := fun _ => "d1", now := 0, downloadDir := "/dl"
  , existingSize := fun _ => none, probe := fun _ _ => .error "boom" }

/-- Claim C2, counterexample: a malformed frame followed by a well-formed
pause frame produces no event at all, while the same pause frame alone is
processed and acknowledged, so the dispatcher does not continue past a
malformed payload. -/
theorem c2_malformed_frame_stops_loop_cex :
    runHost demoParse demoEnv [] (encodeFrame badBody ++ encodeFrame pauseBody) =
      ([], [], []) ∧
    runHost demoParse demoEnv [] (encodeFrame pauseBody) =
      ([], [Event.paused "abc"], []) := by
  constructor
  · rfl
  · rfl

/-- Claim C2 as amended: a well-framed payload that is not valid JSON is
dropped with no response event, and the read loop then terminates exactly as
on end of stream, read_message returning none and run breaking, so the
following frames are never processed. -/
theorem c2_malformed_frame_terminates (parse : List Nat → Option Msg)
    (env : HostEnv) (st : Registry) (bad rest : List Nat) (h1 : bad ≠ [])
    (h2 : bad.length < 4294967296) (h3 : parse bad = none) :
    read_message parse (encodeFrame bad ++ rest) = (none, rest) ∧
    runHost parse env st (encodeFrame bad ++ rest) = (st, [], []) := by
  have hs : encodeFrame bad ++ rest =
      bad.length % 256 :: bad.length / 256 % 256 :: bad.length / 65536 % 256 ::
        bad.length / 16777216 % 256 :: (bad ++ rest) := by
    simp [encodeFrame, pack32LE]
  have hrm : read_message parse (encodeFrame bad ++ rest) = (none, rest) := by
    rw [hs]
    unfold read_message
    have e1 : List.take 4 (bad.length % 256 :: bad.length / 256 % 256 ::
        bad.length / 65536 % 256 :: bad.length / 16777216 % 256 :: (bad ++ rest)) =
        [bad.length % 256, bad.length / 256 % 256, bad.length / 65536 % 256,
          bad.length / 16777216 % 256] := rfl
    have e2 : List.drop 4 (bad.length % 256 :: bad.length / 256 % 256 ::
        bad.length / 65536 % 256 :: bad.length / 16777216 % 256 :: (bad ++ rest)) =
        bad ++ rest := rfl
    rw [e1, e2]
    have e3 : unpack32LE [bad.length % 256, bad.length / 256 % 256,
        bad.length / 65536 % 256, bad.length / 16777216 % 256] = bad.length := by
      show bad.length % 256 + 256 * (bad.length / 256 % 256) +
          65536 * (bad.length / 65536 % 256) +
          16777216 * (bad.length / 16777216 % 256) = bad.length
      omega
    rw [if_neg (by simp)]
    simp only [e3, List.take_left, List.drop_left]
    rw [if_neg h1, h3]
  refine ⟨hrm, ?_⟩
  unfold runHost
  simp only [runAux, hrm]

/-- Witness for the amended claim C2 on the concrete malformed frame. -/
theorem c2_malformed_frame_terminates_witness :
    read_message demoParse (encodeFrame badBody ++ encodeFrame pauseBody) =
      (none, encodeFrame pauseBody) ∧
    runHost demoParse demoEnv [] (encodeFrame badBody ++ encodeFrame pauseBody) =
      ([], [], []) :=
  c2_malformed_frame_terminates demoParse demoEnv [] badBody (encodeFrame pauseBody)
    (by decide) (by decide) rfl

/-- Download command message of the counterexample stream. -/
def msgDownload : Msg :=
  { command := some "download", url := some "http://h/file.bin"
  , referer := none, id := none }

/-- Cancel command message addressed to the active download. -/
def msgCancel : Msg :=
  { command := some "cancel", url := none, referer := none, id := some "d1" }

/-- Claim C4, counterexample: on a probe failure the error event is emitted
before the started acknowledgement for the same id, so the event sequence
for that id does not begin with started. -/
theorem c4_probe_error_precedes_started_cex :
    runHost demoParse demoEnv [] (encodeFrame downloadBody) =
      ([], [Event.error (some "d1") "Failed to get file info: boom",
        Event.started "d1"], []) := by
  rfl

/-- Claim C4 as amended: the started acknowledgement is emitted only after
start_download returns, so every event its callbacks fire synchronously, in
particular the probe-failure error, precedes started; and a cancel command
is acknowledged with a cancelled event by the dispatcher while the
coordinator, observing the flag, independently reports the same download as
an error with the message Download cancelled, so a cancelled download
produces two terminal events. -/
theorem c4_started_after_sync_events (env : HostEnv) (st : Registry) (m : Msg)
    (url e : String) (hu : m.url = some url)
    (hactive : activeAlready st (env.genId url) = false)
    (hprobe : get_file_info url (env.probe url m.referer) = .error e) :
    handle_download_command env st m =
      (st, [Event.error (some (env.genId url)) e,
        Event.started (env.genId url)], none) ∧
    handle_cancel_command stActive msgCancel =
      ([("d1", { recDownloading with cancelled := true, status := .cancelled })],
        [Event.cancelled "d1"]) ∧
    (execute_download 2 stActive "d1" "http://h/big.bin" infoBig "/dl/big.bin"
        (.ok []) 0 segRespDemo (fun _ _ => (false, false)) [0, 1] (fun _ => true)
        (fun _ => 0) (fun _ => "0 B/s")).events =
      [Event.error (some "d1") "Download cancelled"] := by
  refine ⟨?_, rfl, rfl⟩
  unfold handle_download_command
  rw [hu]
  unfold start_download
  simp only [hactive, Bool.false_eq_true, if_false, hprobe]
  rfl

/-- Witness for the amended claim C4 at the concrete probe failure. -/
theorem c4_started_after_sync_events_witness :
    (handle_download_command demoEnv [] msgDownload =
      ([], [Event.error (some "d1") "Failed to get file info: boom",
        Event.started "d1"], none)) ∧
    handle_cancel_command stActive msgCancel =
      ([("d1", { recDownloading with cancelled := true, status := .cancelled })],
        [Event.cancelled "d1"]) ∧
    (execute_download 2 stActive "d1" "http://h/big.bin" infoBig "/dl/big.bin"
        (.ok []) 0 segRespDemo (fun _ _ => (false, false)) [0, 1] (fun _ => true)
        (fun _ => 0) (fun _ => "0 B/s")).events =
      [Event.error (some "d1") "Download cancelled"] :=
  c4_started_after_sync_events demoEnv [] msgDownload "http://h/file.bin"
    "Failed to get file info: boom" rfl rfl rfl

/-! Claim C10. -/

theorem mergeFold_fst :
    ∀ (l : List Nat), l.Nodup → ∀ (acc : List Nat) (fs : Nat → Option (List Nat)),
      (l.foldl mergeStep (acc, fs)).1 =
        acc ++ (l.map (fun i => (fs i).getD [])).flatten := by
  intro l
  induction l with
  | nil => intro _ acc fs; simp
  | cons i t ih =>
    intro hnd acc fs
    rw [List.nodup_cons] at hnd
    obtain ⟨hni, hndt⟩ := hnd
    rw [List.foldl_cons]
    cases hfi : fs i with
    | some c =>
      have hstep : mergeStep (acc, fs) i =
          (acc ++ c, fun j => if j = i then none else fs j) := by
        simp [mergeStep, hfi]
      rw [hstep, ih hndt]
      have hmap : t.map (fun j => ((if j = i then none else fs j)).getD []) =
          t.map (fun j => (fs j).getD []) := by
        apply List.map_eq_map_iff.mpr
        intro j hj
        have hne : j ≠ i := fun hc => hni (hc ▸ hj)
        simp [hne]
      rw [hmap]
      simp [hfi, List.append_assoc]
    | none =>
      have hstep : mergeStep (acc, fs) i = (acc, fs) := by simp [mergeStep, hfi]
      rw [hstep, ih hndt]
      simp [hfi]

theorem mergeFold_snd :
    ∀ (l : List Nat), l.Nodup → ∀ (acc : List Nat) (fs : Nat → Option (List Nat))
      (j : Nat), (l.foldl mergeStep (acc, fs)).2 j = if j ∈ l then none else fs j := by
  intro l
  induction l with
  | nil => intro _ acc fs j; simp
  | cons i t ih =>
    intro hnd acc fs j
    rw [List.nodup_cons] at hnd
    obtain ⟨hni, hndt⟩ := hnd
    rw [List.foldl_cons]
    cases hfi : fs i with
    | some c =>
      have hstep : mergeStep (acc, fs) i =
          (acc ++ c, fun j => if j = i then none else fs j) := by
        simp [mergeStep, hfi]
      rw [hstep, ih hndt]
      by_cases hji : j = i <;> by_cases hjt : j ∈ t <;>
        simp [hji, hjt, List.mem_cons]
    | none =>
      have hstep : mergeStep (acc, fs) i = (acc, fs) := by simp [mergeStep, hfi]
      rw [hstep, ih hndt]
      by_cases hji : j = i <;> by_cases hjt : j ∈ t <;>
        simp [hji, hjt, List.mem_cons, hfi]

/-- Claim C10: merge_segments concatenates exactly the sidecars that exist,
in index order, silently skipping absent ones without raising, and unlinks
each processed index; consequently a multi-segment run whose origin served a
short segment body still ends with status complete, downloaded set to the
probed size, and a final file shorter than that size. -/
theorem c10_merge_skips_missing_sidecars :
    (∀ (parts : Nat → Option (List Nat)) (n : Nat),
      (merge_segments parts n).1 =
        ((List.range n).map (fun i => (parts i).getD [])).flatten ∧
      ∀ j, (merge_segments parts n).2 j = if j < n then none else parts j) ∧
    ((execute_download 2 stActive "d1" "http://h/big.bin" infoBig "/dl/big.bin"
        (.ok []) 0 segRespDemo (fun _ _ => (false, false)) [0, 1] (fun _ => false)
        (fun _ => 0) (fun _ => "0 B/s")).finalFile = some [1, 2, 3] ∧
      (execute_download 2 stActive "d1" "http://h/big.bin" infoBig "/dl/big.bin"
        (.ok []) 0 segRespDemo (fun _ _ => (false, false)) [0, 1] (fun _ => false)
        (fun _ => 0) (fun _ => "0 B/s")).st =
        [("d1", { recDownloading with status := .complete, downloaded := 2097152 })] ∧
      (3 : Nat) < 2097152) := by
  constructor
  · intro parts n
    constructor
    · have h := mergeFold_fst (List.range n) (List.nodup_range n) [] parts
      simpa [merge_segments] using h
    · intro j
      have h := mergeFold_snd (List.range n) (List.nodup_range n) [] parts j
      simpa [merge_segments, List.mem_range] using h
  · exact ⟨rfl, rfl, by norm_num⟩

/-! Claim C6. -/

/-- The partition property of claim C6 for a segment table of the given size
and thread count: one segment per worker, segment i spanning the stated
bounds, the inclusive integer ranges pairwise disjoint, and their union
exactly the interval from zero to size minus one. -/
def SegPartitionSpec (size N : Nat) : Prop :=
  (segments size N).length = N ∧
  (∀ i, i < N → (i, segStart size N i, segEnd size N i) ∈ segments size N) ∧
  (∀ s₁ s₂ : Nat × Int × Int, s₁ ∈ segments size N → s₂ ∈ segments size N →
    s₁ ≠ s₂ → ∀ x : Int,
      ¬ (s₁.2.1 ≤ x ∧ x ≤ s₁.2.2 ∧ s₂.2.1 ≤ x ∧ x ≤ s₂.2.2)) ∧
  (∀ x : Int, (∃ s ∈ segments size N, s.2.1 ≤ x ∧ x ≤ s.2.2) ↔
    (0 ≤ x ∧ x ≤ (size : Int) - 1))

theorem mem_segments (size N : Nat) (s : Nat × Int × Int) :
    s ∈ segments size N ↔
      ∃ i, i < N ∧ s = (i, segStart size N i, segEnd size N i) := by
  unfold segments
  rw [List.mem_map]
  constructor
  · rintro ⟨i, hi, he⟩
    exact ⟨i, List.mem_range.mp hi, he.symm⟩
  · rintro ⟨i, hi, he⟩
    exact ⟨i, List.mem_range.mpr hi, he.symm⟩

theorem seg_disjoint_aux (size N i j : Nat) (hij : i < j) (hj : j < N) (x : Int)
    (hx2 : x ≤ segEnd size N i) (hx3 : segStart size N j ≤ x) : False := by
  have hiN : i ≠ N - 1 := by omega
  unfold segEnd at hx2
  rw [if_neg hiN] at hx2
  unfold segStart at hx3
  have hmul : (i + 1) * (size / N) ≤ j * (size / N) :=
    Nat.mul_le_mul_right _ (by omega)
  have hmulZ : (((i + 1) * (size / N) : Nat) : Int) ≤
      ((j * (size / N) : Nat) : Int) := by exact_mod_cast hmul
  linarith

theorem seg_in_bounds (size N i : Nat) (hi : i < N) (x : Int)
    (hx1 : segStart size N i ≤ x) (hx2 : x ≤ segEnd size N i) :
    0 ≤ x ∧ x ≤ (size : Int) - 1 := by
  have h0 : (0 : Int) ≤ ((i * (size / N) : Nat) : Int) := Int.natCast_nonneg _
  unfold segStart at hx1
  constructor
  · linarith
  · unfold segEnd at hx2
    by_cases hiN : i = N - 1
    · rw [if_pos hiN] at hx2
      exact hx2
    · rw [if_neg hiN] at hx2
      have h1 : (i + 1) * (size / N) ≤ N * (size / N) :=
        Nat.mul_le_mul_right _ (by omega)
      have h2 : N * (size / N) ≤ size := by
        calc N * (size / N) = size / N * N := Nat.mul_comm _ _
          _ ≤ size := Nat.div_mul_le_self size N
      have h1Z : (((i + 1) * (size / N) : Nat) : Int) ≤
          ((N * (size / N) : Nat) : Int) := by exact_mod_cast h1
      have h2Z : ((N * (size / N) : Nat) : Int) ≤ (size : Int) := by exact_mod_cast h2
      linarith

theorem seg_cover_exists (size N : Nat) (hN : 1 ≤ N) (x : Int)
    (hx1 : 0 ≤ x) (hx2 : x ≤ (size : Int) - 1) :
    ∃ i, i < N ∧ segStart size N i ≤ x ∧ x ≤ segEnd size N i := by
  have hxn : ((x.toNat : Nat) : Int) = x := Int.toNat_of_nonneg hx1
  have hN0 : 0 < N := hN
  by_cases hc0 : size / N = 0
  · refine ⟨N - 1, Nat.sub_lt hN0 one_pos, ?_, ?_⟩
    · unfold segStart
      rw [hc0, Nat.mul_zero]
      simpa using hx1
    · unfold segEnd
      rw [if_pos rfl]
      exact hx2
  · have hpos : 0 < size / N := Nat.pos_of_ne_zero hc0
    by_cases hge : N - 1 ≤ x.toNat / (size / N)
    · refine ⟨N - 1, Nat.sub_lt hN0 one_pos, ?_, ?_⟩
      · unfold segStart
        have h1 : (N - 1) * (size / N) ≤ x.toNat / (size / N) * (size / N) :=
          Nat.mul_le_mul_right _ hge
        have h2 : x.toNat / (size / N) * (size / N) ≤ x.toNat :=
          Nat.div_mul_le_self _ _
        have h3 : (N - 1) * (size / N) ≤ x.toNat := le_trans h1 h2
        have h3Z : (((N - 1) * (size / N) : Nat) : Int) ≤ (x.toNat : Int) := by
          exact_mod_cast h3
        linarith [hxn]
      · unfold segEnd
        rw [if_pos rfl]
        exact hx2
    · push_neg at hge
      refine ⟨x.toNat / (size / N), hge.trans_le (Nat.sub_le N 1), ?_, ?_⟩
      · unfold segStart
        have h2 : x.toNat / (size / N) * (size / N) ≤ x.toNat :=
          Nat.div_mul_le_self _ _
        have h2Z : ((x.toNat / (size / N) * (size / N) : Nat) : Int) ≤
            (x.toNat : Int) := by exact_mod_cast h2
        linarith [hxn]
      · unfold segEnd
        rw [if_neg (Nat.ne_of_lt hge)]
        have h3 : x.toNat < (x.toNat / (size / N) + 1) * (size / N) := by
          have hdm := Nat.div_add_mod x.toNat (size / N)
          have hm : x.toNat % (size / N) < size / N := Nat.mod_lt _ hpos
          nlinarith [hdm, hm]
        have h3Z : (x.toNat : Int) <
            (((x.toNat / (size / N) + 1) * (size / N) : Nat) : Int) := by
          exact_mod_cast h3
        linarith [hxn]

/-- Claim C6: for every partition into at least one segment, segment i
covers the inclusive range from i times chunk to the next multiple minus
one, the last segment extends to size minus one, the ranges are pairwise
disjoint, and their union is exactly the interval from zero to size minus
one. -/
theorem c6_segment_ranges_partition (size N : Nat) (hN : 1 ≤ N) :
    SegPartitionSpec size N := by
  refine ⟨?_, ?_, ?_, ?_⟩
  · simp [segments]
  · intro i hi
    unfold segments
    exact List.mem_map.mpr ⟨i, List.mem_range.mpr hi, rfl⟩
  · intro s₁ s₂ h1 h2 hne x hx
    obtain ⟨i, hi, he1⟩ := (mem_segments size N s₁).mp h1
    obtain ⟨j, hj, he2⟩ := (mem_segments size N s₂).mp h2
    obtain ⟨hx1, hx2, hx3, hx4⟩ := hx
    subst he1
    subst he2
    rcases Nat.lt_trichotomy i j with hij | hij | hij
    · exact seg_disjoint_aux size N i j hij hj x (by simpa using hx2)
        (by simpa using hx3)
    · exact hne (by rw [hij])
    · exact seg_disjoint_aux size N j i hij hi x (by simpa using hx4)
        (by simpa using hx1)
  · intro x
    constructor
    · rintro ⟨s, hs, hs1, hs2⟩
      obtain ⟨i, hi, he⟩ := (mem_segments size N s).mp hs
      subst he
      exact seg_in_bounds size N i hi x (by simpa using hs1) (by simpa using hs2)
    · rintro ⟨hx1, hx2⟩
      obtain ⟨i, hi, h1, h2⟩ := seg_cover_exists size N hN x hx1 hx2
      exact ⟨(i, segStart size N i, segEnd size N i),
        (mem_segments size N _).mpr ⟨i, hi, rfl⟩, h1, h2⟩

/-- Witness for claim C6 at the parameters of the two MiB example with the
default parallelism of eight. -/
theorem c6_segment_ranges_partition_witness :
    1 ≤ 8 ∧ SegPartitionSpec 2097152 8 :=
  ⟨by decide, c6_segment_ranges_partition 2097152 8 (by decide)⟩

/-! Claim C7. -/

/-- Filename derivation as the specification states it (section 4.A): prefer
the filename token of Content-Disposition when that header carries one, else
the last path component of the URL with the query stripped, else the literal
download, sanitized.  Written for comparison with the filename that
get_file_info computes. -/
def specFilename (cdHeader : Option String) (url : String) : String :=
  (sanitizeList (match cdHeader with
    | some cd =>
        if pyContains cd.toList fnToken then stripQuotes (splitPiece1 cd.toList fnToken)
        else urlFallbackName url
    | none => urlFallbackName url)).asString

/-- A HEAD response whose Content-Disposition carries no filename token. -/
def cdResp : HeadResponse :=
  { statusOk := true
  , headers := [("content-disposition", "attachment"), ("accept-ranges", "bytes")] }

/-- Claim C7, counterexample: with Content-Disposition present but carrying
no filename token, get_file_info yields the literal download while the
specification rule falls back to the last URL path component file.bin. -/
theorem c7_cd_without_token_cex :
    get_file_info "http://h/path/file.bin" (.ok cdResp) =
      .ok { filename := "download", size := 0, resumable := true
          , headers := cdResp.headers } ∧
    specFilename (some "attachment") "http://h/path/file.bin" = "file.bin" ∧
    ("download" : String) ≠ "file.bin" := by
  refine ⟨rfl, rfl, by decide⟩

/-- Claim C7 as amended: the filename of a successful probe is the
Content-Disposition token when the header is present and carries one, the
URL fallback when the header is absent, and the literal download when the
header is present without a filename token; always sanitized. -/
theorem c7_filename_amended (url : String) (r : HeadResponse) (info : FileInfo)
    (h : get_file_info url (.ok r) = .ok info) :
    info.filename =
      (sanitizeList (rawFilename (r.headers.lookup "content-disposition") url)).asString ∧
    ∀ c, r.headers.lookup "content-disposition" = some c →
      pyContains c.toList fnToken = false →
      info.filename = (sanitizeList "download".toList).asString := by
  have h1 : info.filename =
      (sanitizeList (rawFilename (r.headers.lookup "content-disposition") url)).asString := by
    simp only [get_file_info] at h
    cases hst : r.statusOk with
    | false => rw [hst] at h; simp at h
    | true =>
      rw [hst] at h
      simp only [Bool.not_true, Bool.false_eq_true, if_false] at h
      cases hm : contentLengthOf r.headers with
      | none => rw [hm] at h; simp at h
      | some n =>
        rw [hm] at h
        have h2 : _ = info := Except.ok.inj h
        rw [← h2]
  refine ⟨h1, ?_⟩
  intro c hc hnc
  rw [h1, hc]
  have hnc2 : pyContains c.data fnToken = false := hnc
  simp [rawFilename, hnc2]

/-- Witness for the amended claim C7 at the concrete probe of the
counterexample. -/
theorem c7_filename_amended_witness :
    ({ filename := "download", size := 0, resumable := true
      , headers := cdResp.headers } : FileInfo).filename =
      (sanitizeList (rawFilename (cdResp.headers.lookup "content-disposition")
        "http://h/path/file.bin")).asString ∧
    (∀ c, cdResp.headers.lookup "content-disposition" = some c →
      pyContains c.toList fnToken = false →
      ({ filename := "download", size := 0, resumable := true
        , headers := cdResp.headers } : FileInfo).filename =
        (sanitizeList "download".toList).asString) :=
  c7_filename_amended "http://h/path/file.bin" cdResp _ rfl
